import Mathlib

/-!
Shallow embedding of the simulation core of the Vibe Coding Simulator
(src/logic/projectLogic.ts, resourceManager.ts, gameEngine.ts, feedLogic.ts,
src/contexts/GameContext.tsx), together with proofs settling the spec claims.

Numbers are modelled as exact rationals; JavaScript `Math.random()` draws and
other impure inputs (shuffle order, `Date.now()`, the module-level cooldown
table) are threaded explicitly as oracle parameters, one fresh draw per call
site, following the deterministic-random-source convention of the design notes.
-/

namespace VibeSim

/-- JS `x || 1` on a number: `0` is falsy and falls back to `1`. -/
def jsOr1 (x : ℚ) : ℚ := if x = 0 then 1 else x

/-- JS `n || 1` on an integer (used for `gameState.day || 1`). -/
def jsOrOneInt (n : ℤ) : ℤ := if n = 0 then 1 else n

/-- Job status, from `projectLogic.ts` (`'running' | 'error' | 'completed' | 'failed'`). -/
inductive Status where
  | running
  | error
  | completed
  | failed
deriving DecidableEq, Repr

/-- One entry of a job's error history: `{ type: string; threshold: number }`. -/
structure ProjError where
  type : String
  threshold : ℚ
deriving DecidableEq, Repr

/-- `ProjectState` from `projectLogic.ts` (second revision, with `baselineTime`). -/
structure ProjectState where
  projectId : String
  assignedGpu : ℤ
  progress : ℚ
  timeRemaining : ℚ
  errors : List ProjError
  status : Status
  baseErrorRate : ℚ
  yoloSuccessRate : ℚ
  baselineTime : ℚ
deriving DecidableEq, Repr

/-- Modifier bundle produced by `calculateCombinedModifiers`. -/
structure Modifiers where
  speedMultiplier : ℚ
  errorMultiplier : ℚ
  yoloMultiplier : ℚ
deriving DecidableEq, Repr

/-- `PROJECT_ERROR_THRESHOLDS` from `constants.ts`. -/
def PROJECT_ERROR_THRESHOLDS : List ℚ := [1/4, 1/2, 3/4]

/-- `MAX_FEED_MESSAGES` from `constants.ts`. -/
def MAX_FEED_MESSAGES : ℕ := 5

/-- `MAX_ARCHIVED_FEED_MESSAGES` from `constants.ts`. -/
def MAX_ARCHIVED_FEED_MESSAGES : ℕ := 25

/-- `TIME_BLOCKS_PER_DAY` from `constants.ts`. -/
def TIME_BLOCKS_PER_DAY : ℤ := 8

/-- `checkErrorProbability` from `projectLogic.ts`: effective rate is
`baseErrorRate * (modifiers.errorMultiplier || 1)` clamped to `[0,1]`;
`draw` stands for the `Math.random()` call, error iff `draw < rate`. -/
def checkErrorProbability (projectState : ProjectState) (modifiers : Modifiers)
    (draw : ℚ) : Bool :=
  let baseErrorRate := projectState.baseErrorRate
  let errorMultiplier := jsOr1 modifiers.errorMultiplier
  let effectiveErrorRate := baseErrorRate * errorMultiplier
  let clampedErrorRate := max 0 (min 1 effectiveErrorRate)
  decide (draw < clampedErrorRate)

/-- The threshold loop of `updateProjectProgress`: for each threshold crossed in
this call (in ascending list order), evaluate the error check with the next
random draw; on the first error, set status to error, append the threshold to
the history and stop (`break`). `i` indexes the random stream `rnd`. -/
def thresholdLoop (modifiers : Modifiers) (previousProgress : ℚ) (rnd : ℕ → ℚ) :
    List ℚ → ℕ → ProjectState → ProjectState
  | [], _, p => p
  | t :: ts, i, p =>
    if previousProgress < t ∧ t ≤ p.progress then
      if checkErrorProbability p modifiers (rnd i) then
        { p with status := Status.error,
                 errors := p.errors ++ [⟨"standard", t⟩] }
      else
        thresholdLoop modifiers previousProgress rnd ts (i + 1) p
    else
      thresholdLoop modifiers previousProgress rnd ts i p

/-- The progress-increment part of `updateProjectProgress`: with
`baseTimeBlocks = baselineTime || 1` and `timeUnitsPerBlock = 1`, add
`(1 / baseTimeBlocks) * (speedMultiplier || 1)` to the progress, clamp it at
1, and recompute `timeRemaining = max(0, baseTimeBlocks * (1 - progress))`. -/
def preTick (projectState : ProjectState) (modifiers : Modifiers) : ProjectState :=
  let baseTimeBlocks := jsOr1 projectState.baselineTime
  let effectiveSpeedMultiplier := jsOr1 modifiers.speedMultiplier
  let progressIncrement := 1 / baseTimeBlocks * effectiveSpeedMultiplier
  let newProgress := min 1 (projectState.progress + progressIncrement)
  { projectState with
      progress := newProgress,
      timeRemaining := max 0 (baseTimeBlocks * (1 - newProgress)) }

/-- `updateProjectProgress` from `projectLogic.ts` (second revision).
`timeUnits` is the (unused, as in the source) time-units parameter; `rnd` is
the stream of `Math.random()` draws consumed by the error checks of this call.
After the progress update and the threshold loop, the completion check marks
the job completed whenever progress reached 1. -/
def updateProjectProgress (projectState : ProjectState) (timeUnits : ℚ)
    (modifiers : Modifiers) (rnd : ℕ → ℚ) : ProjectState :=
  let _ := timeUnits
  let p3 := thresholdLoop modifiers projectState.progress rnd
              PROJECT_ERROR_THRESHOLDS 0 (preTick projectState modifiers)
  if 1 ≤ p3.progress then { p3 with status := Status.completed } else p3

/-- `resolveYolo` from `projectLogic.ts` (second revision);
`draw` stands for the `Math.random()` call. -/
def resolveYolo (projectState : ProjectState) (modifiers : Modifiers)
    (draw : ℚ) : ProjectState :=
  let yoloSuccessRate := projectState.yoloSuccessRate
  let effectiveSuccessRate := yoloSuccessRate * jsOr1 modifiers.yoloMultiplier
  if draw < effectiveSuccessRate then
    { projectState with status := Status.running,
                        errors := projectState.errors.dropLast }
  else
    { projectState with status := Status.failed }

/-- Prompt catalog record as read by `resolveIntervention`
(`Clarity`, `Specificity`, `Adaptability`; `parseFloat(x || "0")` on a
missing column yields `0`, so the fields are total rationals). -/
structure PromptItem where
  Prompt_ID : String
  Name : String
  Clarity : ℚ
  Specificity : ℚ
  Adaptability : ℚ
  Cost : ℚ
deriving DecidableEq, Repr

/-- `resolveIntervention` from `projectLogic.ts` (second revision);
`draw` stands for the `Math.random()` call. An unknown prompt id leaves the
project unchanged; success sets status running and pops the last error. -/
def resolveIntervention (projectState : ProjectState) (promptId : String)
    (promptsData : List PromptItem) (modifiers : Modifiers) (draw : ℚ) :
    ProjectState :=
  let _ := modifiers
  match promptsData.find? (fun p => p.Prompt_ID == promptId) with
  | none => projectState
  | some promptUsed =>
    let baseSuccessRate : ℚ := 9/10
    let promptQuality :=
      (promptUsed.Clarity + promptUsed.Specificity + promptUsed.Adaptability) / 3
    let successRate := baseSuccessRate * (promptQuality / 5)
    if draw < successRate then
      { projectState with status := Status.running,
                          errors := projectState.errors.dropLast }
    else
      projectState

/-- Hardware catalog record (`hardware.csv` row as typed in `resourceManager.ts`). -/
structure HardwareItem where
  Hardware_ID : String
  Name : String
  Processing_Power : ℚ
  Memory : ℚ
  Energy_Efficiency : ℚ
  Cost : ℚ
deriving DecidableEq, Repr

/-- AI model catalog record (`ai_models.csv` row as typed in `resourceManager.ts`). -/
structure AiModelItem where
  Model_ID : String
  Model_Name : String
  Accuracy : ℚ
  Inference_Speed : ℚ
  Specialization : String
  Cost : ℚ
deriving DecidableEq, Repr

/-- Project catalog record (`projects.csv` row, fields read by the game logic). -/
structure Project where
  Project_ID : String
  Name : String
  Complexity : ℚ
  Baseline_Time : ℚ
  YOLO_Success : ℚ
  Error_Rate : ℚ
  Reward : ℚ
  Reputation_Reward : ℚ
deriving DecidableEq, Repr

/-- Feed message instance (`FeedMessage` in `feedLogic.ts`); the optional
`action`/`projectId` fields model the `?:` fields, `timestamp` the
`Date.now()` stamp. -/
structure FeedMessage where
  id : String
  type : String
  title : String
  body : String
  action : Option String
  projectId : Option String
  timestamp : ℤ
deriving DecidableEq, Repr

/-- Message template catalog record (`messages.csv` row). `Value_Probability`
is optional because the source applies `parseFloat(t.Value_Probability || "0.1")`;
`Action`/`Project_ID` are optional (empty cells are falsy in the source's tests). -/
structure MessageTemplate where
  Message_ID : String
  Type' : String
  Title : String
  Body : String
  Value_Probability : Option ℚ
  Action : Option String
  Project_ID : Option String
deriving DecidableEq, Repr

/-- `ExtendedGameState` from `gameEngine.ts` (second revision) together with the
feed fields of `GameState` from `feedLogic.ts`. -/
structure GameState where
  day : ℤ
  timeBlocks : ℤ
  credits : ℚ
  reputation : ℚ
  health : ℚ
  blockProgress : ℚ
  aiModels : List AiModelItem
  availableProjects : List Project
  prompts : List PromptItem
  hardware : List HardwareItem
  messageTemplates : List MessageTemplate
  activeProjects : List ProjectState
  ownedHardware : List String
  ownedAiModels : List String
  ownedPrompts : List String
  activeFeedMessages : List FeedMessage
  archivedFeedMessages : List FeedMessage
  availableGpus : ℤ
  completedProjects : List String
deriving DecidableEq, Repr

/-- The `reduce` of `calculateCombinedModifiers` with the first element as the
initial accumulator: keep `best` only when its key is strictly greater,
otherwise take `current`.  (JS `arr.reduce(f, arr[0])` folds over every
element, the first one included.) -/
def pickBest (key : α → ℚ) : List α → Option α
  | [] => none
  | x :: xs =>
    some ((x :: xs).foldl (fun best cur => if key cur < key best then best else cur) x)

/-- The owned-hardware resolution of `calculateCombinedModifiers`: map each
owned id to its catalog record and drop the ids that resolve to nothing
(`.map(...).filter(Boolean)`). -/
def ownedHardwareItems (s : GameState) : List HardwareItem :=
  s.ownedHardware.filterMap (fun id => s.hardware.find? (fun h => h.Hardware_ID == id))

/-- The owned-AI-model resolution of `calculateCombinedModifiers`. -/
def ownedAiModelItems (s : GameState) : List AiModelItem :=
  s.ownedAiModels.filterMap (fun id => s.aiModels.find? (fun mo => mo.Model_ID == id))

/-- The hardware section of `calculateCombinedModifiers` (resourceManager.ts,
second revision): resolve owned ids against the catalog, pick the owned item
with the highest `Processing_Power`, and apply the power / memory / efficiency
effects. -/
def applyHardwareMods (s : GameState) (m : Modifiers) : Modifiers :=
  match pickBest (fun h => h.Processing_Power) (ownedHardwareItems s) with
  | none => m
  | some activeHardware =>
    let powerEffect := 1 + activeHardware.Processing_Power * (8/100)
    let memoryEffect := max (6/10) (1 - activeHardware.Memory * (8/100))
    let efficiencyBonus := activeHardware.Energy_Efficiency * (4/100)
    let efficiencySpeedEffect := 1 + efficiencyBonus
    let efficiencyErrorEffect := 1 - efficiencyBonus
    { m with
        speedMultiplier := m.speedMultiplier * powerEffect * efficiencySpeedEffect,
        errorMultiplier := m.errorMultiplier * memoryEffect * efficiencyErrorEffect }

/-- The AI-model section of `calculateCombinedModifiers`: pick the owned model
with the highest `Accuracy` and apply the accuracy / inference-speed / YOLO
effects. -/
def applyAiMods (s : GameState) (m : Modifiers) : Modifiers :=
  match pickBest (fun mo => mo.Accuracy) (ownedAiModelItems s) with
  | none => m
  | some activeAiModel =>
    let accuracyEffect := max (6/10) (1 - activeAiModel.Accuracy * (12/100))
    let speedEffect := 1 + activeAiModel.Inference_Speed * (12/100)
    let yoloEffect := 1 + activeAiModel.Accuracy * (25/100)
    { m with
        speedMultiplier := m.speedMultiplier * speedEffect,
        errorMultiplier := m.errorMultiplier * accuracyEffect,
        yoloMultiplier := m.yoloMultiplier * yoloEffect }

/-- `calculateCombinedModifiers` from `resourceManager.ts` (second revision,
taking the game state): start from neutral multipliers, apply the hardware
effects, then the AI-model effects. -/
def calculateCombinedModifiers (gameState : GameState) : Modifiers :=
  applyAiMods gameState (applyHardwareMods gameState ⟨1, 1, 1⟩)

/-- Oracle bundling the impure inputs of the logic: `Math.random()` streams
(one per call site family), the `sort(() => Math.random() - 0.5)` shuffle, the
`Date.now()` clock and message-id generator, and the module-level
`recentlyShownMessages` cooldown table of `feedLogic.ts`. -/
structure Oracle where
  projDraw : ℕ → ℕ → ℚ
  ctxDraw : ℕ → ℚ
  probDraw : ℕ → ℚ
  shuffle : List MessageTemplate → List MessageTemplate
  msgId : ℕ → String
  now : ℤ
  recentlyShown : String → Option ℤ

/-- `canOfferProject` from `feedLogic.ts`: no offer for projects that are
already active, already completed, or already in the available list. -/
def canOfferProject (projectId : String) (gameState : GameState) : Bool :=
  if gameState.activeProjects.any (fun p => p.projectId == projectId) then false
  else if gameState.completedProjects.any (fun c => c == projectId) then false
  else if gameState.availableProjects.any (fun p => p.Project_ID == projectId) then false
  else true

/-- `isMessageOnCooldown` from `feedLogic.ts` (`MESSAGE_COOLDOWN_DAYS = 3`),
reading the module-level table through the oracle. -/
def isMessageOnCooldown (recentlyShown : String → Option ℤ) (templateId : String)
    (currentDay : ℤ) : Bool :=
  match recentlyShown templateId with
  | none => false
  | some lastShown => decide (currentDay - lastShown < 3)

/-- `passesContextualRequirements` from `feedLogic.ts`; `ctxDraw` is the
`Math.random()` draw of the high-complexity boost branch. -/
def passesContextualRequirements (template : MessageTemplate) (gameState : GameState)
    (ctxDraw : ℚ) : Bool :=
  if template.Message_ID == "msg_006" && decide ((40 : ℚ) < gameState.health) then
    false
  else if template.Message_ID == "msg_003" &&
      gameState.ownedHardware.any (fun h => h == "hw_004") then
    false
  else if template.Message_ID == "msg_010" &&
      gameState.ownedAiModels.any (fun m => m == "ai_004") then
    false
  else
    match template.Action, template.Project_ID with
    | some "Accept Project", some projectId =>
      match gameState.availableProjects.find? (fun p => p.Project_ID == projectId) with
      | some project =>
        if decide ((7/10 : ℚ) < project.Complexity) && decide ((15 : ℤ) ≤ gameState.day) then
          decide (ctxDraw < 9/10)
        else true
      | none => true
    | _, _ => true

/-- The eligibility filter of `generateNewMessages`: cooldown, contextual
requirements, probability draw, and `canOfferProject` for project offers.
`i` is the template's index in `messageTemplates` (each template's checks use
fresh draws). -/
def templateEligible (gameState : GameState) (o : Oracle) (currentDay : ℤ)
    (i : ℕ) (template : MessageTemplate) : Bool :=
  if isMessageOnCooldown o.recentlyShown template.Message_ID currentDay then false
  else if ! passesContextualRequirements template gameState (o.ctxDraw i) then false
  else
    let probability := template.Value_Probability.getD (1/10)
    let passedProbabilityCheck := decide (o.probDraw i < probability)
    match template.Action, template.Project_ID with
    | some "Accept Project", some projectId =>
      passedProbabilityCheck && canOfferProject projectId gameState
    | _, _ => passedProbabilityCheck

/-- The `while` fill loop of `generateNewMessages`: keep appending the first
shuffled template not yet selected while fewer than `messagesToAdd` (and fewer
than `shuffled.length`) are selected.  The fuel argument bounds the iteration
count (each iteration grows the selection by one). -/
def fillSelection (shuffled : List MessageTemplate) (messagesToAdd : ℤ) :
    ℕ → List MessageTemplate → List MessageTemplate
  | 0, selected => selected
  | fuel + 1, selected =>
    if (selected.length : ℤ) < messagesToAdd ∧ selected.length < shuffled.length then
      match shuffled.filter (fun t => ! selected.contains t) with
      | [] => selected
      | r :: _ => fillSelection shuffled messagesToAdd fuel (selected ++ [r])
    else selected

/-- The type-diversity selection of `generateNewMessages`: push the first
Social template unconditionally, then the first Direct and System templates
while below `messagesToAdd`, then fill the remaining slots from the shuffled
pool. -/
def selectTemplates (shuffled : List MessageTemplate) (messagesToAdd : ℤ) :
    List MessageTemplate :=
  let socialTemplates := shuffled.filter (fun t => t.Type' == "Social")
  let directTemplates := shuffled.filter (fun t => t.Type' == "Direct")
  let systemTemplates := shuffled.filter (fun t => t.Type' == "System")
  let sel1 : List MessageTemplate :=
    match socialTemplates with
    | [] => []
    | x :: _ => [x]
  let sel2 :=
    match directTemplates with
    | [] => sel1
    | x :: _ => if (sel1.length : ℤ) < messagesToAdd then sel1 ++ [x] else sel1
  let sel3 :=
    match systemTemplates with
    | [] => sel2
    | x :: _ => if (sel2.length : ℤ) < messagesToAdd then sel2 ++ [x] else sel2
  fillSelection shuffled messagesToAdd (shuffled.length + 3) sel3

/-- Template-to-message conversion of `generateNewMessages` (`i` indexes the
generated unique id). -/
def mkFeedMessage (o : Oracle) (i : ℕ) (template : MessageTemplate) : FeedMessage :=
  { id := o.msgId i
    type := template.Type'
    title := template.Title
    body := template.Body
    action := template.Action
    projectId := template.Project_ID
    timestamp := o.now }

/-- `generateNewMessages` from `feedLogic.ts` (cooldown/contextual revision):
filter eligible templates, select up to `min(3, MAX_FEED_MESSAGES - feed
length, eligible count)` of them with type diversity, prepend the new
messages (most recent first) and truncate the feed to `MAX_FEED_MESSAGES`.
(The source also records each selection in the module-level cooldown table;
that side effect is outside the returned state, as in the source.) -/
def generateNewMessages (gameState : GameState) (o : Oracle) : GameState :=
  let newFeedMessages := gameState.activeFeedMessages
  if gameState.messageTemplates.isEmpty then
    { gameState with activeFeedMessages := newFeedMessages }
  else
    let currentDay := jsOrOneInt gameState.day
    let eligibleTemplates :=
      ((gameState.messageTemplates.enum.filter
          (fun it => templateEligible gameState o currentDay it.1 it.2)).map
        (fun it => it.2))
    let messagesToAdd : ℤ :=
      min 3 (min ((MAX_FEED_MESSAGES : ℤ) - newFeedMessages.length)
                 (eligibleTemplates.length : ℤ))
    let fm1 :=
      if 0 < messagesToAdd ∧ ¬ eligibleTemplates.isEmpty then
        let shuffled := o.shuffle eligibleTemplates
        let selected := selectTemplates shuffled messagesToAdd
        (selected.enum.map (fun it => mkFeedMessage o it.1 it.2)).reverse
          ++ newFeedMessages
      else newFeedMessages
    let fm2 := if MAX_FEED_MESSAGES < fm1.length then fm1.take MAX_FEED_MESSAGES else fm1
    { gameState with activeFeedMessages := fm2 }

/-- Feed action kinds accepted by `handleFeedAction`. -/
inductive FeedActionType where
  | accept
  | dismiss
  | archive
deriving DecidableEq, Repr

/-- `handleFeedAction` from `feedLogic.ts` (bounded-archive revision): remove
the message from the active feed; prepend it to the archive (except for
accepted project offers, which are handled by the caller); truncate the
archive to `MAX_ARCHIVED_FEED_MESSAGES`, dropping the oldest entries at the
end. -/
def handleFeedAction (gameState : GameState) (messageId : String)
    (actionType : FeedActionType) : GameState :=
  match gameState.activeFeedMessages.find? (fun msg => msg.id == messageId) with
  | none => gameState
  | some message =>
    let newActive := gameState.activeFeedMessages.filter (fun msg => ! (msg.id == messageId))
    let newArchived :=
      match actionType with
      | FeedActionType.accept =>
        if message.action == some "Accept Project" && message.projectId.isSome then
          gameState.archivedFeedMessages
        else
          message :: gameState.archivedFeedMessages
      | _ => message :: gameState.archivedFeedMessages
    let newArchived' :=
      if MAX_ARCHIVED_FEED_MESSAGES < newArchived.length then
        newArchived.take MAX_ARCHIVED_FEED_MESSAGES
      else newArchived
    { gameState with activeFeedMessages := newActive, archivedFeedMessages := newArchived' }

/-- Map with the element's index, mirroring the positional `map` over
`activeProjects` (each position gets its own random stream). -/
def mapWithIdx (f : ℕ → α → β) : ℕ → List α → List β
  | _, [] => []
  | i, x :: xs => f i x :: mapWithIdx f (i + 1) xs

/-- `advanceTimeBlock` from `gameEngine.ts` (second revision): decrement the
block counter, roll the day (resetting the counter to `TIME_BLOCKS_PER_DAY`
and applying the daily health cost) when it reaches 0, tick every running
project with the combined modifiers, and on a day rollover merge the feed
fields produced by `generateNewMessages`. -/
def advanceTimeBlock (gameState : GameState) (o : Oracle) : GameState :=
  let newTimeBlocks0 := gameState.timeBlocks - 1
  let isNewDay := newTimeBlocks0 ≤ 0
  let s1 :=
    if newTimeBlocks0 ≤ 0 then
      { gameState with
          day := gameState.day + 1,
          timeBlocks := TIME_BLOCKS_PER_DAY,
          health := max 0 (gameState.health - 5) }
    else { gameState with timeBlocks := newTimeBlocks0 }
  let modifiers := calculateCombinedModifiers s1
  let s2 :=
    { s1 with
        activeProjects :=
          mapWithIdx (fun i proj =>
            if proj.status = Status.running then
              updateProjectProgress proj 1 modifiers (o.projDraw i)
            else proj) 0 s1.activeProjects }
  if isNewDay then
    let feedUpdatedState := generateNewMessages s2 o
    { s2 with
        activeFeedMessages := feedUpdatedState.activeFeedMessages,
        archivedFeedMessages := feedUpdatedState.archivedFeedMessages }
  else s2

/-- `findIndex` followed by indexing, as used by the GameContext handlers:
returns the first element satisfying the test together with its index. -/
def findWithIndex (pred : α → Bool) : List α → ℕ → Option (ℕ × α)
  | [], _ => none
  | x :: xs, i => if pred x then some (i, x) else findWithIndex pred xs (i + 1)

/-- `handleYoloAttempt` from `GameContext.tsx` (second revision): locate the
project by id (no status check), resolve the YOLO attempt with the current
modifiers, and on failure apply the reputation and health penalties and remove
the project. -/
def handleYoloAttempt (gameState : GameState) (projectId : String) (draw : ℚ) :
    GameState :=
  match findWithIndex (fun p => p.projectId == projectId) gameState.activeProjects 0 with
  | none => gameState
  | some (projectIndex, project) =>
    let modifiers := calculateCombinedModifiers gameState
    let updatedProject := resolveYolo project modifiers draw
    let newActiveProjects := gameState.activeProjects.set projectIndex updatedProject
    if updatedProject.status = Status.failed then
      { gameState with
          activeProjects := newActiveProjects.filter (fun p => ! (p.projectId == projectId)),
          reputation := max 0 (gameState.reputation - 10),
          health := max 0 (gameState.health - 2) }
    else
      { gameState with activeProjects := newActiveProjects }

/-- `handleInterventionAttempt` from `GameContext.tsx` (second revision):
locate the project by id, resolve the intervention, consume one time block
(never below 1) only on success, and always apply the 1-point health cost. -/
def handleInterventionAttempt (gameState : GameState) (projectId : String)
    (promptId : String) (draw : ℚ) : GameState :=
  match findWithIndex (fun p => p.projectId == projectId) gameState.activeProjects 0 with
  | none => gameState
  | some (projectIndex, project) =>
    let modifiers := calculateCombinedModifiers gameState
    let updatedProject :=
      resolveIntervention project promptId gameState.prompts modifiers draw
    let newActiveProjects := gameState.activeProjects.set projectIndex updatedProject
    let wasSuccessful :=
      project.status = Status.error ∧ updatedProject.status = Status.running
    let newHealth := max 0 (gameState.health - 1)
    { gameState with
        activeProjects := newActiveProjects,
        timeBlocks :=
          if wasSuccessful then max 1 (gameState.timeBlocks - 1) else gameState.timeBlocks,
        health := newHealth }

/-- `assignProjectToGpu` from `GameContext.tsx` (second revision): require the
project to be available and the GPU slot to be free (no range check on
`gpuId`), then move the project from the available list to the active list
with a fresh running `ProjectState`. -/
def assignProjectToGpu (gameState : GameState) (projectId : String) (gpuId : ℤ) :
    GameState :=
  match gameState.availableProjects.find? (fun p => p.Project_ID == projectId) with
  | none => gameState
  | some projectToAssign =>
    if gameState.activeProjects.any (fun p => p.assignedGpu = gpuId) then gameState
    else
      let newActiveProject : ProjectState :=
        { projectId := projectToAssign.Project_ID
          assignedGpu := gpuId
          progress := 0
          timeRemaining := projectToAssign.Baseline_Time * 2
          errors := []
          status := Status.running
          baseErrorRate := projectToAssign.Error_Rate
          yoloSuccessRate := projectToAssign.YOLO_Success
          baselineTime := projectToAssign.Baseline_Time }
      { gameState with
          activeProjects := gameState.activeProjects ++ [newActiveProject],
          availableProjects :=
            gameState.availableProjects.filter (fun p => ! (p.Project_ID == projectId)) }

/-- Iterated `advanceTimeBlock`, one oracle per tick (the core operation
sequence of the time controller). -/
def advanceSeq (gameState : GameState) : List Oracle → GameState
  | [] => gameState
  | o :: os => advanceSeq (advanceTimeBlock gameState o) os

/-! ### Concrete states used by witnesses and counterexamples -/

/-- Neutral modifiers (the defaults with no equipment owned). -/
def neutralMods : Modifiers := ⟨1, 1, 1⟩

/-- A deterministic random stream that always draws 0 (every probabilistic
check with positive effective rate succeeds). -/
def zeroRnd : ℕ → ℚ := fun _ => 0

/-- A running job at 70% progress whose tick will cross the 0.75 threshold and
reach progress 1 in the same call. -/
def exProjC1 : ProjectState :=
  { projectId := "p1"
    assignedGpu := 1
    progress := 7/10
    timeRemaining := 1
    errors := []
    status := Status.running
    baseErrorRate := 1
    yoloSuccessRate := 1/2
    baselineTime := 2 }

/-- A base game state matching the initial state of `GameContext.tsx`
(with empty catalogs and no owned items unless stated otherwise). -/
def baseState : GameState :=
  { day := 1
    timeBlocks := 8
    credits := 1000
    reputation := 0
    health := 100
    blockProgress := 0
    aiModels := []
    availableProjects := []
    prompts := []
    hardware := []
    messageTemplates := []
    activeProjects := []
    ownedHardware := []
    ownedAiModels := []
    ownedPrompts := []
    activeFeedMessages := []
    archivedFeedMessages := []
    availableGpus := 4
    completedProjects := [] }

/-- A catalog project used by the handler-level examples. -/
def exProjectRec : Project :=
  { Project_ID := "p1"
    Name := "Demo"
    Complexity := 1/2
    Baseline_Time := 4
    YOLO_Success := 0
    Error_Rate := 1/10
    Reward := 100
    Reputation_Reward := 1 }

/-- State with one assignable project, used by C2 and C8. -/
def sAssign : GameState := { baseState with availableProjects := [exProjectRec] }

/-- The catalog prompt owned at game start. -/
def prC7 : PromptItem :=
  { Prompt_ID := "pr_001"
    Name := "Basic Debug"
    Clarity := 5
    Specificity := 5
    Adaptability := 5
    Cost := 0 }

/-- An errored job awaiting resolution. -/
def errProjC7 : ProjectState :=
  { projectId := "p1"
    assignedGpu := 1
    progress := 1/2
    timeRemaining := 2
    errors := [⟨"standard", 1/2⟩]
    status := Status.error
    baseErrorRate := 1/10
    yoloSuccessRate := 1/2
    baselineTime := 4 }

/-- State for C7: the catalog holds `pr_001` but the player owns no prompt at
all, and one active job is in error. -/
def sC7 : GameState :=
  { baseState with
      prompts := [prC7]
      ownedPrompts := []
      activeProjects := [errProjC7] }

/-- Hardware with `Energy_Efficiency = 25`: its unclamped efficiency factor
`1 - 25 * 0.04` is exactly 0. -/
def hwEE25 : HardwareItem :=
  { Hardware_ID := "hw_e"
    Name := "Zero"
    Processing_Power := 0
    Memory := 0
    Energy_Efficiency := 25
    Cost := 0 }

/-- State for the C4 counterexample. -/
def sC4 : GameState :=
  { baseState with hardware := [hwEE25], ownedHardware := ["hw_e"] }

/-- Hardware with `Energy_Efficiency = 50`: its efficiency factor is −1,
turning the error multiplier negative. -/
def hwEE50 : HardwareItem :=
  { Hardware_ID := "hw_f"
    Name := "Neg"
    Processing_Power := 0
    Memory := 0
    Energy_Efficiency := 50
    Cost := 0 }

/-- A weakest AI model (accuracy 0). -/
def modelAcc0 : AiModelItem :=
  { Model_ID := "ai_a"
    Model_Name := "Weak"
    Accuracy := 0
    Inference_Speed := 0
    Specialization := "none"
    Cost := 0 }

/-- A strictly better AI model (accuracy 1, all other attributes equal). -/
def modelAcc1 : AiModelItem :=
  { Model_ID := "ai_b"
    Model_Name := "Strong"
    Accuracy := 1
    Inference_Speed := 0
    Specialization := "none"
    Cost := 0 }

/-- C5 counterexample state A: efficiency-50 hardware plus the weak model. -/
def sA5 : GameState :=
  { baseState with
      hardware := [hwEE50]
      ownedHardware := ["hw_f"]
      aiModels := [modelAcc0]
      ownedAiModels := ["ai_a"] }

/-- C5 counterexample state B: the same hardware plus the strictly better model. -/
def sB5 : GameState :=
  { baseState with
      hardware := [hwEE50]
      ownedHardware := ["hw_f"]
      aiModels := [modelAcc1]
      ownedAiModels := ["ai_b"] }

/-- A state owning a single hardware item and a single AI model, used to state
the monotonicity of the modifier calculator. -/
def singleState (hw : HardwareItem) (ai : AiModelItem) : GameState :=
  { baseState with
      hardware := [hw]
      ownedHardware := [hw.Hardware_ID]
      aiModels := [ai]
      ownedAiModels := [ai.Model_ID] }

/-- First of two hardware items tied on `Processing_Power` (memory 0). -/
def hwTieA : HardwareItem :=
  { Hardware_ID := "hw_a"
    Name := "TieA"
    Processing_Power := 1
    Memory := 0
    Energy_Efficiency := 0
    Cost := 0 }

/-- Second of the tied hardware items (memory 5, so its memory effect is the
0.6 floor). -/
def hwTieB : HardwareItem :=
  { Hardware_ID := "hw_b"
    Name := "TieB"
    Processing_Power := 1
    Memory := 5
    Energy_Efficiency := 0
    Cost := 0 }

/-- State for the C6 tie-breaking counterexample: both tied items owned, the
`hw_a` one encountered first in ownership order. -/
def sC6 : GameState :=
  { baseState with
      hardware := [hwTieA, hwTieB]
      ownedHardware := ["hw_a", "hw_b"] }

/-- The running job created by assigning `exProjectRec` to slot 1
(its `YOLO_Success` is 0, so any quick-resolution draw fails). -/
def runJobC2 : ProjectState :=
  { projectId := "p1"
    assignedGpu := 1
    progress := 0
    timeRemaining := 8
    errors := []
    status := Status.running
    baseErrorRate := 1/10
    yoloSuccessRate := 0
    baselineTime := 4 }

/-- The state reached from `sAssign` by assigning the project to slot 1. -/
def sRun : GameState := assignProjectToGpu sAssign "p1" 1

/-- A feed message sitting in the active feed. -/
def msgC9 : FeedMessage :=
  { id := "m1"
    type := "Social"
    title := "Hello"
    body := "World"
    action := none
    projectId := none
    timestamp := 0 }

/-- State whose active feed holds one message. -/
def sC9 : GameState := { baseState with activeFeedMessages := [msgC9] }

/-- A deterministic oracle (all draws 0, identity shuffle, empty cooldown
table). -/
def constOracle : Oracle :=
  { projDraw := fun _ _ => 0
    ctxDraw := fun _ => 0
    probDraw := fun _ => 0
    shuffle := id
    msgId := fun i => "msg_" ++ toString i
    now := 0
    recentlyShown := fun _ => none }

/-! ### Helper lemmas about the job tick -/

/-- The threshold loop either returns the project unchanged or stops at the
first triggered error, setting status to error and appending exactly that
threshold. -/
theorem thresholdLoop_eq_or (m : Modifiers) (prev : ℚ) (rnd : ℕ → ℚ)
    (ts : List ℚ) (i : ℕ) (p : ProjectState) :
    thresholdLoop m prev rnd ts i p = p ∨
    ∃ t, thresholdLoop m prev rnd ts i p =
      { p with status := Status.error, errors := p.errors ++ [⟨"standard", t⟩] } := by
  induction ts generalizing i with
  | nil => left; rfl
  | cons t ts ih =>
    unfold thresholdLoop
    by_cases h : prev < t ∧ t ≤ p.progress
    · rw [if_pos h]
      by_cases hc : checkErrorProbability p m (rnd i) = true
      · rw [if_pos hc]; exact Or.inr ⟨t, rfl⟩
      · rw [if_neg hc]; exact ih (i + 1)
    · rw [if_neg h]; exact ih i

theorem thresholdLoop_progress (m : Modifiers) (prev : ℚ) (rnd : ℕ → ℚ)
    (ts : List ℚ) (i : ℕ) (p : ProjectState) :
    (thresholdLoop m prev rnd ts i p).progress = p.progress := by
  rcases thresholdLoop_eq_or m prev rnd ts i p with h | ⟨t, h⟩ <;> rw [h]

theorem preTick_progress (p : ProjectState) (m : Modifiers) :
    (preTick p m).progress =
      min 1 (p.progress + 1 / jsOr1 p.baselineTime * jsOr1 m.speedMultiplier) := rfl

theorem preTick_errors (p : ProjectState) (m : Modifiers) :
    (preTick p m).errors = p.errors := rfl

/-- The progress computed by one call of `updateProjectProgress`. -/
theorem updateProjectProgress_progress (p : ProjectState) (tu : ℚ)
    (m : Modifiers) (rnd : ℕ → ℚ) :
    (updateProjectProgress p tu m rnd).progress =
      min 1 (p.progress + 1 / jsOr1 p.baselineTime * jsOr1 m.speedMultiplier) := by
  simp only [updateProjectProgress]
  split
  · simp [thresholdLoop_progress, preTick_progress]
  · simp [thresholdLoop_progress, preTick_progress]

/-! ### C1 — error roll versus completion in the same tick -/

/-- C1 counterexample: in this tick the error roll succeeds at the crossed
threshold 0.75 (the threshold is appended to the error history), yet the call
returns status `completed`, not `error`, because the completion check runs
afterwards and overrides it. -/
theorem claim_C1_counterexample :
    (updateProjectProgress exProjC1 1 neutralMods zeroRnd).status = Status.completed ∧
    (updateProjectProgress exProjC1 1 neutralMods zeroRnd).errors =
      [⟨"standard", 3/4⟩] ∧
    exProjC1.status = Status.running := by
  norm_num [updateProjectProgress, preTick, thresholdLoop, checkErrorProbability,
    PROJECT_ERROR_THRESHOLDS, jsOr1, exProjC1, neutralMods, zeroRnd, min_def, max_def]

/-- C1 amended: for a running job, `updateProjectProgress` returns status
`completed` exactly when the updated progress reaches 1 — even when the error
roll succeeded at a threshold crossed in the same call (the threshold stays
appended to the error history); the call ends in status `error` only when the
updated progress stays below 1. -/
theorem claim_C1_amended (p : ProjectState) (m : Modifiers) (rnd : ℕ → ℚ)
    (h : p.status = Status.running) :
    ((updateProjectProgress p 1 m rnd).status = Status.completed ↔
      1 ≤ (updateProjectProgress p 1 m rnd).progress) ∧
    ((updateProjectProgress p 1 m rnd).status = Status.error →
      (updateProjectProgress p 1 m rnd).progress < 1 ∧
      (updateProjectProgress p 1 m rnd).errors.length = p.errors.length + 1) := by
  unfold updateProjectProgress
  have hprog : (thresholdLoop m p.progress rnd PROJECT_ERROR_THRESHOLDS 0
      (preTick p m)).progress = (preTick p m).progress :=
    thresholdLoop_progress _ _ _ _ _ _
  rcases thresholdLoop_eq_or m p.progress rnd PROJECT_ERROR_THRESHOLDS 0 (preTick p m)
    with hL | ⟨t, hL⟩
  · rw [hL]
    by_cases hle : (1 : ℚ) ≤ (preTick p m).progress
    · rw [if_pos hle]
      refine ⟨⟨fun _ => hle, fun _ => rfl⟩, ?_⟩
      intro hst; cases hst
    · rw [if_neg hle]
      constructor
      · constructor
        · intro hst
          have hst' : p.status = Status.completed := hst
          rw [h] at hst'; cases hst'
        · intro hle'; exact absurd hle' hle
      · intro hst
        have hst' : p.status = Status.error := hst
        rw [h] at hst'; cases hst'
  · rw [hL]
    by_cases hle : (1 : ℚ) ≤ (preTick p m).progress
    · rw [if_pos hle]
      exact ⟨⟨fun _ => hle, fun _ => rfl⟩, fun hst => absurd hst (by simp)⟩
    · rw [if_neg hle]
      refine ⟨⟨fun hst => absurd hst (by simp), fun hle' => absurd hle' hle⟩, ?_⟩
      intro _
      refine ⟨lt_of_not_le hle, ?_⟩
      simp [preTick_errors]

/-- C1 amended, witness at a concrete input: the job `exProjC1` is running and
its tick reaches progress 1, so the returned status is `completed`. -/
theorem claim_C1_amended_witness :
    exProjC1.status = Status.running ∧
    (updateProjectProgress exProjC1 1 neutralMods zeroRnd).status = Status.completed :=
  ⟨rfl,
    (claim_C1_amended exProjC1 neutralMods zeroRnd rfl).1.mpr (by
      norm_num [updateProjectProgress_progress, exProjC1, neutralMods, jsOr1, min_def])⟩

/-! ### Helper lemmas about the handler plumbing -/

/-- `findWithIndex` returns the position (relative to the start index) of an
element of the list that satisfies the test. -/
theorem findWithIndex_spec (pred : α → Bool) :
    ∀ (l : List α) (i j : ℕ) (x : α), findWithIndex pred l i = some (j, x) →
      ∃ k, j = i + k ∧ l[k]? = some x ∧ pred x = true := by
  intro l
  induction l with
  | nil => intro i j x h; cases h
  | cons y ys ih =>
    intro i j x h
    unfold findWithIndex at h
    by_cases hy : pred y = true
    · rw [if_pos hy] at h
      obtain ⟨h1, h2⟩ := Prod.mk.injEq .. ▸ Option.some.injEq .. ▸ h
      exact ⟨0, by omega, by simp [← h2], h2 ▸ hy⟩
    · rw [if_neg hy] at h
      obtain ⟨k, hk, hget, hpred⟩ := ih (i + 1) j x h
      exact ⟨k + 1, by omega, by simpa using hget, hpred⟩

/-- An element found by `findWithIndex` belongs to the list. -/
theorem findWithIndex_mem (pred : α → Bool) (l : List α) (j : ℕ) (x : α)
    (h : findWithIndex pred l 0 = some (j, x)) : x ∈ l ∧ pred x = true := by
  obtain ⟨k, _, hget, hpred⟩ := findWithIndex_spec pred l 0 j x h
  exact ⟨List.getElem?_mem hget, hpred⟩

/-- Writing back the element already stored at a position leaves the list
unchanged. -/
theorem set_self_of_getElem? : ∀ (l : List α) (i : ℕ) (x : α),
    l[i]? = some x → l.set i x = l := by
  intro l
  induction l with
  | nil => intro i x h; cases h
  | cons y ys ih =>
    intro i x h
    cases i with
    | zero => simp_all
    | succ n =>
      simp only [List.getElem?_cons_succ] at h
      simp [List.set, ih n x h]

/-- Membership in a list after `set`: the element is either the written value
or an original member. -/
theorem mem_of_mem_set' : ∀ (l : List α) (i : ℕ) (a x : α),
    x ∈ l.set i a → x ∈ l ∨ x = a := by
  intro l
  induction l with
  | nil => intro i a x h; cases h
  | cons y ys ih =>
    intro i a x h
    cases i with
    | zero =>
      rcases List.mem_cons.mp h with h | h
      · exact Or.inr h
      · exact Or.inl (List.mem_cons_of_mem _ h)
    | succ n =>
      rcases List.mem_cons.mp h with h | h
      · exact Or.inl (h ▸ List.mem_cons_self _ _)
      · rcases ih n a x h with h | h
        · exact Or.inl (List.mem_cons_of_mem _ h)
        · exact Or.inr h

/-! ### C10 — guided resolution never drains the block counter -/

/-- C10: a guided-resolution attempt keeps `timeBlocks ≥ 1` (for any state
with at least one block left), never changes the day, and when exactly one
block remains the counter stays exactly 1 — a success consumes no block. -/
theorem claim_C10 (s : GameState) (projectId promptId : String) (draw : ℚ)
    (h : 1 ≤ s.timeBlocks) :
    1 ≤ (handleInterventionAttempt s projectId promptId draw).timeBlocks ∧
    (handleInterventionAttempt s projectId promptId draw).day = s.day ∧
    (s.timeBlocks = 1 →
      (handleInterventionAttempt s projectId promptId draw).timeBlocks = 1) := by
  unfold handleInterventionAttempt
  cases hf : findWithIndex (fun p => p.projectId == projectId) s.activeProjects 0 with
  | none => exact ⟨h, rfl, fun h1 => h1⟩
  | some pair =>
    obtain ⟨idx, project⟩ := pair
    refine ⟨?_, rfl, ?_⟩
    · dsimp only
      split
      · exact le_max_left 1 _
      · exact h
    · intro h1
      dsimp only
      rw [h1]
      split
      · norm_num
      · rfl

/-- C10, witness: at the initial state (8 blocks) a guided resolution leaves
at least one block. -/
theorem claim_C10_witness :
    1 ≤ (handleInterventionAttempt baseState "p1" "pr_001" 0).timeBlocks :=
  (claim_C10 baseState "p1" "pr_001" 0 (by norm_num [baseState])).1

/-! ### C7 — guided resolution with an unknown or unowned tool -/

/-- C7 counterexample: calling guided resolution on state `sC7` with the tool
id `"zzz"` that is unknown to the catalog (and not owned) still changes the
game state — health drops from 100 to 99 — so the call is not a state-preserving
no-op; moreover the player owns no prompt at all, yet the owned-status is never
checked: the unowned catalog prompt `"pr_001"` resolves the error normally
(the job returns to running). -/
theorem claim_C7_counterexample :
    sC7.prompts.find? (fun p => p.Prompt_ID == "zzz") = none ∧
    sC7.health = 100 ∧
    (handleInterventionAttempt sC7 "p1" "zzz" 0).health = 99 ∧
    sC7.ownedPrompts = [] ∧
    ((handleInterventionAttempt sC7 "p1" "pr_001" 0).activeProjects.map
      (fun p => p.status)) = [Status.running] := by
  refine ⟨rfl, rfl, ?_, rfl, ?_⟩
  · norm_num [handleInterventionAttempt, findWithIndex, resolveIntervention,
      sC7, baseState, errProjC7, prC7, List.find?, max_def]
  · norm_num [handleInterventionAttempt, findWithIndex, resolveIntervention,
      sC7, baseState, errProjC7, prC7, List.find?, max_def]

/-- C7 amended: (a) a guided-resolution call whose project id is not found is a
total no-op; (b) when the project exists but the tool id is unknown to the
prompt catalog, the job, the block counter and every other field are unchanged
— except that the 1-point health cost is still applied (`health` becomes
`max 0 (health - 1)`); and (c) `ownedPrompts` plays no role in the outcome at
all (ownership is never checked), so an unowned catalog prompt behaves exactly
like an owned one. -/
theorem claim_C7_amended :
    (∀ (s : GameState) (pid tid : String) (d : ℚ),
      findWithIndex (fun p => p.projectId == pid) s.activeProjects 0 = none →
      handleInterventionAttempt s pid tid d = s) ∧
    (∀ (s : GameState) (pid tid : String) (d : ℚ) (i : ℕ) (project : ProjectState),
      findWithIndex (fun p => p.projectId == pid) s.activeProjects 0 = some (i, project) →
      s.prompts.find? (fun p => p.Prompt_ID == tid) = none →
      handleInterventionAttempt s pid tid d = { s with health := max 0 (s.health - 1) }) ∧
    (∀ (s : GameState) (pid tid : String) (d : ℚ) (l : List String),
      handleInterventionAttempt { s with ownedPrompts := l } pid tid d =
        { handleInterventionAttempt s pid tid d with ownedPrompts := l }) := by
  refine ⟨?_, ?_, ?_⟩
  · intro s pid tid d hf
    unfold handleInterventionAttempt
    rw [hf]
  · intro s pid tid d i project hf hnone
    unfold handleInterventionAttempt
    rw [hf]
    dsimp only
    unfold resolveIntervention
    rw [hnone]
    dsimp only
    have hset : s.activeProjects.set i project = s.activeProjects := by
      obtain ⟨k, hk, hget', _⟩ := findWithIndex_spec _ s.activeProjects 0 i project hf
      have : k = i := by omega
      exact set_self_of_getElem? s.activeProjects i project (this ▸ hget')
    rw [hset]
    have hws : ¬ (project.status = Status.error ∧ project.status = Status.running) := by
      rintro ⟨h1, h2⟩
      rw [h1] at h2
      cases h2
    rw [if_neg hws]
  · intro s pid tid d l
    unfold handleInterventionAttempt
    have hAP : ({ s with ownedPrompts := l } : GameState).activeProjects
        = s.activeProjects := rfl
    rw [hAP]
    cases hf : findWithIndex (fun p => p.projectId == pid) s.activeProjects 0 with
    | none => rfl
    | some pair =>
      obtain ⟨i, project⟩ := pair
      rfl

/-- C7 amended, witness: at state `sC7`, the unknown tool id `"zzz"` leaves
everything but health unchanged. -/
theorem claim_C7_amended_witness :
    handleInterventionAttempt sC7 "p1" "zzz" 0 =
      { sC7 with health := max 0 (sC7.health - 1) } :=
  claim_C7_amended.2.1 sC7 "p1" "zzz" 0 0 errProjC7 rfl rfl

/-! ### C8 — GPU slot uniqueness and slot range -/

/-- C8 counterexample: `assignProjectToGpu` accepts the out-of-range slot id
99 (the state has only 4 slots), so the range half of the claimed invariant is
not preserved for arbitrary `gpuId`. -/
theorem claim_C8_counterexample :
    sAssign.availableGpus = 4 ∧
    ((assignProjectToGpu sAssign "p1" 99).activeProjects.map
      (fun p => p.assignedGpu)) = [99] := by
  refine ⟨rfl, ?_⟩
  norm_num [assignProjectToGpu, sAssign, baseState, exProjectRec, List.find?]

/-- C8 amended: `assignProjectToGpu` always preserves pairwise-distinct slot
assignments (the occupied-slot guard), and it preserves the slot-range
invariant only when the requested `gpuId` itself lies in `[1, availableGpus]`
— the function performs no range validation of its own. -/
theorem claim_C8_amended :
    (∀ (s : GameState) (pid : String) (g : ℤ),
      List.Pairwise (fun a b => a.assignedGpu ≠ b.assignedGpu) s.activeProjects →
      List.Pairwise (fun a b => a.assignedGpu ≠ b.assignedGpu)
        (assignProjectToGpu s pid g).activeProjects) ∧
    (∀ (s : GameState) (pid : String) (g : ℤ),
      1 ≤ g → g ≤ s.availableGpus →
      (∀ p ∈ s.activeProjects, 1 ≤ p.assignedGpu ∧ p.assignedGpu ≤ s.availableGpus) →
      ∀ p ∈ (assignProjectToGpu s pid g).activeProjects,
        1 ≤ p.assignedGpu ∧ p.assignedGpu ≤ (assignProjectToGpu s pid g).availableGpus) := by
  constructor
  · intro s pid g hpw
    unfold assignProjectToGpu
    cases hfind : s.availableProjects.find? (fun p => p.Project_ID == pid) with
    | none => exact hpw
    | some projectToAssign =>
      dsimp only
      split
      · exact hpw
      · next hAny =>
        dsimp only
        rw [List.pairwise_append]
        refine ⟨hpw, List.pairwise_singleton .. , ?_⟩
        intro a ha b hb
        have hb' : b.assignedGpu = g := by
          rcases List.mem_singleton.mp hb with rfl
          rfl
        rw [hb']
        simp only [List.any_eq_true, decide_eq_true_eq, not_exists, not_and] at hAny
        exact hAny a ha
  · intro s pid g hg1 hg2 hall p hp
    unfold assignProjectToGpu at hp ⊢
    cases hfind : s.availableProjects.find? (fun p => p.Project_ID == pid) with
    | none =>
      rw [hfind] at hp
      exact hall p hp
    | some projectToAssign =>
      rw [hfind] at hp
      dsimp only at hp ⊢
      by_cases hAny : (s.activeProjects.any fun p => decide (p.assignedGpu = g)) = true
      · rw [if_pos hAny] at hp ⊢
        exact hall p hp
      · rw [if_neg hAny] at hp ⊢
        dsimp only at hp ⊢
        rcases List.mem_append.mp hp with h | h
        · exact hall p h
        · rcases List.mem_singleton.mp h with rfl
          exact ⟨hg1, hg2⟩

/-! ### Helper lemmas about the best-item selection -/

/-- The selection fold of `calculateCombinedModifiers`: the result is the
initial accumulator or a list element, its key dominates the initial key, and
it dominates the key of every list element. -/
theorem foldl_pick (key : α → ℚ) (l : List α) : ∀ init : α,
    (l.foldl (fun best cur => if key cur < key best then best else cur) init = init ∨
      l.foldl (fun best cur => if key cur < key best then best else cur) init ∈ l) ∧
    key init ≤ key (l.foldl (fun best cur => if key cur < key best then best else cur) init) ∧
    ∀ z ∈ l, key z ≤ key (l.foldl (fun best cur => if key cur < key best then best else cur) init) := by
  induction l with
  | nil => intro init; exact ⟨Or.inl rfl, le_refl _, by simp⟩
  | cons x xs ih =>
    intro init
    simp only [List.foldl_cons]
    obtain ⟨hmem, hle, hall⟩ := ih (if key x < key init then init else x)
    have hinit_b : key init ≤ key (if key x < key init then init else x) := by
      split
      · exact le_refl _
      · next h => exact le_of_not_lt h
    have hx_b : key x ≤ key (if key x < key init then init else x) := by
      split
      · next h => exact le_of_lt h
      · exact le_refl _
    refine ⟨?_, le_trans hinit_b hle, ?_⟩
    · rcases hmem with h | h
      · rw [h]
        split
        · exact Or.inl rfl
        · exact Or.inr (List.mem_cons_self _ _)
      · exact Or.inr (List.mem_cons_of_mem _ h)
    · intro z hz
      rcases List.mem_cons.mp hz with rfl | hz
      · exact le_trans hx_b hle
      · exact hall z hz

/-- A selected best item belongs to the list it was selected from. -/
theorem pickBest_mem (key : α → ℚ) (l : List α) (a : α)
    (h : pickBest key l = some a) : a ∈ l := by
  cases l with
  | nil => cases h
  | cons x xs =>
    simp only [pickBest, Option.some.injEq] at h
    obtain ⟨hmem, -, -⟩ := foldl_pick key (x :: xs) x
    rw [← h]
    rcases hmem with h' | h'
    · rw [h']; exact List.mem_cons_self _ _
    · exact h'

/-- The selected best item has the highest key of the list. -/
theorem pickBest_is_max (key : α → ℚ) (l : List α) (a : α)
    (h : pickBest key l = some a) : ∀ z ∈ l, key z ≤ key a := by
  cases l with
  | nil => cases h
  | cons x xs =>
    simp only [pickBest, Option.some.injEq] at h
    obtain ⟨-, -, hall⟩ := foldl_pick key (x :: xs) x
    intro z hz
    rw [← h]
    exact hall z hz

/-- Tie-breaking: appending an item whose key dominates every earlier item
makes it the selected one — the selection keeps the earlier best only on a
strictly greater key, so the LAST of several tied maxima wins. -/
theorem pickBest_append_last (key : α → ℚ) (l : List α) (x : α)
    (h : ∀ z ∈ l, key z ≤ key x) : pickBest key (l ++ [x]) = some x := by
  cases l with
  | nil =>
    simp only [List.nil_append, pickBest, List.foldl_cons, List.foldl_nil,
      Option.some.injEq]
    rw [if_neg (lt_irrefl _)]
  | cons y ys =>
    simp only [List.cons_append, pickBest, Option.some.injEq]
    rw [show y :: (ys ++ [x]) = (y :: ys) ++ [x] from rfl, List.foldl_append]
    simp only [List.foldl_cons, List.foldl_nil]
    obtain ⟨hmem, -, -⟩ := foldl_pick key (y :: ys) y
    have hb_mem : (y :: ys).foldl
        (fun best cur => if key cur < key best then best else cur) y ∈ y :: ys := by
      rcases hmem with h' | h'
      · rw [h']; exact List.mem_cons_self _ _
      · exact h'
    exact if_neg (not_lt_of_le (h _ hb_mem))

/-- An item resolved from the owned-hardware ids is a catalog record. -/
theorem ownedHardwareItems_subset (s : GameState) (a : HardwareItem)
    (h : a ∈ ownedHardwareItems s) : a ∈ s.hardware := by
  unfold ownedHardwareItems at h
  obtain ⟨id, -, hfind⟩ := List.mem_filterMap.mp h
  exact List.mem_of_find?_eq_some hfind

/-! ### C4 — positivity of the error multiplier -/

theorem applyAiMods_error_pos (s : GameState) (m : Modifiers)
    (hm : 0 < m.errorMultiplier) : 0 < (applyAiMods s m).errorMultiplier := by
  unfold applyAiMods
  cases h : pickBest (fun mo => mo.Accuracy) (ownedAiModelItems s) with
  | none => exact hm
  | some a =>
    dsimp only
    have h1 : (0 : ℚ) < max (6/10) (1 - a.Accuracy * (12/100)) :=
      lt_of_lt_of_le (by norm_num) (le_max_left _ _)
    exact mul_pos hm h1

theorem applyHardwareMods_error_pos (s : GameState) (m : Modifiers)
    (hEE : ∀ hw ∈ s.hardware, hw.Energy_Efficiency < 25)
    (hm : 0 < m.errorMultiplier) : 0 < (applyHardwareMods s m).errorMultiplier := by
  unfold applyHardwareMods
  cases h : pickBest (fun hw => hw.Processing_Power) (ownedHardwareItems s) with
  | none => exact hm
  | some a =>
    dsimp only
    have ha_hw : a ∈ s.hardware :=
      ownedHardwareItems_subset s a (pickBest_mem _ _ _ h)
    have hEEa := hEE a ha_hw
    have h1 : (0 : ℚ) < max (6/10) (1 - a.Memory * (8/100)) :=
      lt_of_lt_of_le (by norm_num) (le_max_left _ _)
    have h2 : (0 : ℚ) < 1 - a.Energy_Efficiency * (4/100) := by linarith
    exact mul_pos (mul_pos hm h1) h2

/-- C4 counterexample: with the owned hardware `hwEE25`
(`Energy_Efficiency = 25`, all other attributes 0) the errorMultiplier
returned by `calculateCombinedModifiers` is exactly 0 — the claimed positive
floor does not exist. -/
theorem claim_C4_counterexample :
    sC4.hardware = [hwEE25] ∧
    (calculateCombinedModifiers sC4).errorMultiplier = 0 := by
  refine ⟨rfl, ?_⟩
  norm_num [calculateCombinedModifiers, applyHardwareMods, applyAiMods,
    ownedHardwareItems, ownedAiModelItems, pickBest, sC4, baseState, hwEE25,
    List.find?, List.filterMap, max_def]

/-- C4 amended: only the memory and accuracy factors are floored (at 0.6); the
energy-efficiency factor `1 − Energy_Efficiency·0.04` is unclamped, so the
errorMultiplier is strictly positive exactly on catalogs whose hardware has
`Energy_Efficiency < 25`; there is no global positive floor. -/
theorem claim_C4_amended (s : GameState)
    (h : ∀ hw ∈ s.hardware, hw.Energy_Efficiency < 25) :
    0 < (calculateCombinedModifiers s).errorMultiplier := by
  unfold calculateCombinedModifiers
  exact applyAiMods_error_pos _ _ (applyHardwareMods_error_pos _ _ h (by norm_num))

/-- C4 amended, witness: at the initial state (no hardware catalog) the
errorMultiplier is positive. -/
theorem claim_C4_amended_witness :
    0 < (calculateCombinedModifiers baseState).errorMultiplier :=
  claim_C4_amended baseState (by simp [baseState])

/-! ### C6 — best-item selection and tie-breaking -/

/-- C6 counterexample: `hwTieA` and `hwTieB` are tied on `Processing_Power`
and owned in that order, yet the selection picks `hwTieB` — the
last-encountered tied item — and the resulting errorMultiplier is 0.6
(from `hwTieB.Memory = 5`), not the 1 that the first-encountered item's
attributes would give. -/
theorem claim_C6_counterexample :
    hwTieA.Processing_Power = hwTieB.Processing_Power ∧
    ownedHardwareItems sC6 = [hwTieA, hwTieB] ∧
    pickBest (fun h => h.Processing_Power) (ownedHardwareItems sC6) = some hwTieB ∧
    (calculateCombinedModifiers sC6).errorMultiplier = 6/10 ∧
    1 * max (6/10) (1 - hwTieA.Memory * (8/100)) *
      (1 - hwTieA.Energy_Efficiency * (4/100)) = 1 := by
  have e1 : (("hw_a" : String) == "hw_b") = false := rfl
  have e2 : (("hw_b" : String) == "hw_b") = true := rfl
  have e3 : (("hw_a" : String) == "hw_a") = true := rfl
  refine ⟨rfl, ?_, ?_, ?_, ?_⟩
  · norm_num [ownedHardwareItems, sC6, baseState, hwTieA, hwTieB, List.find?,
      List.filterMap, e1, e2, e3]
  · norm_num [ownedHardwareItems, pickBest, sC6, baseState, hwTieA, hwTieB,
      List.find?, List.filterMap, e1, e2, e3]
  · norm_num [calculateCombinedModifiers, applyHardwareMods, applyAiMods,
      ownedHardwareItems, ownedAiModelItems, pickBest, sC6, baseState, hwTieA,
      hwTieB, List.find?, List.filterMap, max_def, e1, e2, e3]
  · norm_num [hwTieA, max_def]

/-- C6 amended: the selection used by `calculateCombinedModifiers` does pick
an owned item with the highest attribute (`Processing_Power` for hardware,
`Accuracy` for AI models), but ties are broken in favour of the LAST
encountered item in ownership order, not the first: appending an item whose
attribute dominates all earlier ones always makes it the active one. -/
theorem claim_C6_amended :
    (∀ (s : GameState) (a : HardwareItem),
      pickBest (fun h => h.Processing_Power) (ownedHardwareItems s) = some a →
      a ∈ ownedHardwareItems s ∧
      ∀ z ∈ ownedHardwareItems s, z.Processing_Power ≤ a.Processing_Power) ∧
    (∀ (l : List HardwareItem) (x : HardwareItem),
      (∀ z ∈ l, z.Processing_Power ≤ x.Processing_Power) →
      pickBest (fun h => h.Processing_Power) (l ++ [x]) = some x) ∧
    (∀ (s : GameState) (a : AiModelItem),
      pickBest (fun mo => mo.Accuracy) (ownedAiModelItems s) = some a →
      a ∈ ownedAiModelItems s ∧
      ∀ z ∈ ownedAiModelItems s, z.Accuracy ≤ a.Accuracy) ∧
    (∀ (l : List AiModelItem) (x : AiModelItem),
      (∀ z ∈ l, z.Accuracy ≤ x.Accuracy) →
      pickBest (fun mo => mo.Accuracy) (l ++ [x]) = some x) :=
  ⟨fun _ a h => ⟨pickBest_mem _ _ _ h, pickBest_is_max _ _ _ h⟩,
   fun _ x h => pickBest_append_last _ _ _ h,
   fun _ a h => ⟨pickBest_mem _ _ _ h, pickBest_is_max _ _ _ h⟩,
   fun _ x h => pickBest_append_last _ _ _ h⟩

/-- C6 amended, witness: appending the tied item `hwTieB` after `hwTieA`
selects `hwTieB`. -/
theorem claim_C6_amended_witness :
    pickBest (fun h => h.Processing_Power) ([hwTieA] ++ [hwTieB]) = some hwTieB :=
  claim_C6_amended.2.1 [hwTieA] hwTieB (by
    intro z hz
    rcases List.mem_singleton.mp hz with rfl
    norm_num [hwTieA, hwTieB])

/-! ### C5 — determinism and monotonicity of the modifier calculator -/

/-- Closed form of the combined modifiers for a single owned hardware item and
a single owned AI model. -/
theorem calculateCombinedModifiers_singleState (hw : HardwareItem) (ai : AiModelItem) :
    calculateCombinedModifiers (singleState hw ai) =
      ⟨1 * (1 + hw.Processing_Power * (8/100)) * (1 + hw.Energy_Efficiency * (4/100)) *
          (1 + ai.Inference_Speed * (12/100)),
        1 * max (6/10) (1 - hw.Memory * (8/100)) * (1 - hw.Energy_Efficiency * (4/100)) *
          max (6/10) (1 - ai.Accuracy * (12/100)),
        1 * (1 + ai.Accuracy * (25/100))⟩ := by
  simp [calculateCombinedModifiers, applyHardwareMods, applyAiMods,
    ownedHardwareItems, ownedAiModelItems, singleState, baseState, pickBest,
    List.find?, List.filterMap]

/-- C5 counterexample: the two states own the same hardware (efficiency 50,
whose unclamped efficiency factor turns the errorMultiplier negative) and
state B owns a model at least as good as state A in every attribute - yet B's
errorMultiplier is strictly larger than A's, so strictly better equipment can
increase the errorMultiplier. -/
theorem claim_C5_counterexample :
    sA5.hardware = sB5.hardware ∧
    sA5.ownedHardware = sB5.ownedHardware ∧
    modelAcc0.Accuracy ≤ modelAcc1.Accuracy ∧
    modelAcc0.Inference_Speed ≤ modelAcc1.Inference_Speed ∧
    (calculateCombinedModifiers sA5).errorMultiplier <
      (calculateCombinedModifiers sB5).errorMultiplier := by
  refine ⟨rfl, rfl, by norm_num [modelAcc0, modelAcc1],
    by norm_num [modelAcc0, modelAcc1], ?_⟩
  norm_num [calculateCombinedModifiers, applyHardwareMods, applyAiMods,
    ownedHardwareItems, ownedAiModelItems, pickBest, sA5, sB5, baseState,
    hwEE50, modelAcc0, modelAcc1, List.find?, List.filterMap, max_def]

/-- C5 amended: the calculator is deterministic — it depends only on the
ownership lists and the two catalogs — and it is monotone (speed never
decreases, error never increases under pointwise-better equipment) provided
the attributes are nonnegative and `Energy_Efficiency ≤ 25`, the region where
the unclamped efficiency factor stays nonnegative; outside it the
counterexample applies. -/
theorem claim_C5_amended :
    (∀ s t : GameState,
      s.ownedHardware = t.ownedHardware → s.ownedAiModels = t.ownedAiModels →
      s.hardware = t.hardware → s.aiModels = t.aiModels →
      calculateCombinedModifiers s = calculateCombinedModifiers t) ∧
    (∀ (hwA hwB : HardwareItem) (aiA aiB : AiModelItem),
      0 ≤ hwA.Processing_Power → 0 ≤ hwA.Energy_Efficiency →
      0 ≤ aiA.Inference_Speed →
      hwA.Processing_Power ≤ hwB.Processing_Power →
      hwA.Memory ≤ hwB.Memory →
      hwA.Energy_Efficiency ≤ hwB.Energy_Efficiency →
      hwB.Energy_Efficiency ≤ 25 →
      aiA.Accuracy ≤ aiB.Accuracy →
      aiA.Inference_Speed ≤ aiB.Inference_Speed →
      (calculateCombinedModifiers (singleState hwA aiA)).speedMultiplier ≤
        (calculateCombinedModifiers (singleState hwB aiB)).speedMultiplier ∧
      (calculateCombinedModifiers (singleState hwB aiB)).errorMultiplier ≤
        (calculateCombinedModifiers (singleState hwA aiA)).errorMultiplier) := by
  constructor
  · intro s t h1 h2 h3 h4
    unfold calculateCombinedModifiers applyHardwareMods applyAiMods
      ownedHardwareItems ownedAiModelItems
    rw [h1, h2, h3, h4]
  · intro hwA hwB aiA aiB hPP0 hEE0 hIS0 hPP hMem hEE hEE25 hAcc hIS
    rw [calculateCombinedModifiers_singleState, calculateCombinedModifiers_singleState]
    simp only [one_mul]
    have hPPB0 : (0 : ℚ) ≤ hwB.Processing_Power := le_trans hPP0 hPP
    have hEEB0 : (0 : ℚ) ≤ hwB.Energy_Efficiency := le_trans hEE0 hEE
    have hISB0 : (0 : ℚ) ≤ aiB.Inference_Speed := le_trans hIS0 hIS
    constructor
    · have a1 : (1 : ℚ) + hwA.Processing_Power * (8/100) ≤
          1 + hwB.Processing_Power * (8/100) := by linarith
      have a2 : (1 : ℚ) + hwA.Energy_Efficiency * (4/100) ≤
          1 + hwB.Energy_Efficiency * (4/100) := by linarith
      have a3 : (1 : ℚ) + aiA.Inference_Speed * (12/100) ≤
          1 + aiB.Inference_Speed * (12/100) := by linarith
      have p1 : (0 : ℚ) ≤ 1 + hwA.Processing_Power * (8/100) := by linarith
      have p2 : (0 : ℚ) ≤ 1 + hwA.Energy_Efficiency * (4/100) := by linarith
      have p3 : (0 : ℚ) ≤ 1 + aiA.Inference_Speed * (12/100) := by linarith
      have m12 : (1 + hwA.Processing_Power * (8/100)) *
          (1 + hwA.Energy_Efficiency * (4/100)) ≤
          (1 + hwB.Processing_Power * (8/100)) *
          (1 + hwB.Energy_Efficiency * (4/100)) :=
        mul_le_mul a1 a2 p2 (le_trans p1 a1)
      exact mul_le_mul m12 a3 p3
        (mul_nonneg (le_trans p1 a1) (le_trans p2 a2))
    · have b1 : max (6/10 : ℚ) (1 - hwB.Memory * (8/100)) ≤
          max (6/10) (1 - hwA.Memory * (8/100)) :=
        max_le_max (le_refl _) (by linarith)
      have b2 : (1 : ℚ) - hwB.Energy_Efficiency * (4/100) ≤
          1 - hwA.Energy_Efficiency * (4/100) := by linarith
      have b3 : max (6/10 : ℚ) (1 - aiB.Accuracy * (12/100)) ≤
          max (6/10) (1 - aiA.Accuracy * (12/100)) :=
        max_le_max (le_refl _) (by linarith)
      have q1A : (0 : ℚ) ≤ max (6/10) (1 - hwA.Memory * (8/100)) :=
        le_trans (by norm_num) (le_max_left _ _)
      have q2 : (0 : ℚ) ≤ 1 - hwB.Energy_Efficiency * (4/100) := by linarith
      have q3 : (0 : ℚ) ≤ max (6/10) (1 - aiB.Accuracy * (12/100)) :=
        le_trans (by norm_num) (le_max_left _ _)
      have m12 : max (6/10 : ℚ) (1 - hwB.Memory * (8/100)) *
          (1 - hwB.Energy_Efficiency * (4/100)) ≤
          max (6/10) (1 - hwA.Memory * (8/100)) *
          (1 - hwA.Energy_Efficiency * (4/100)) :=
        mul_le_mul b1 b2 q2 q1A
      exact mul_le_mul m12 b3 q3 (mul_nonneg q1A (le_trans q2 b2))

/-- C5 amended, witness: with the same hardware and a strictly better model,
speed does not decrease and error does not increase (all attributes in the
nonnegative, efficiency-below-25 region). -/
theorem claim_C5_amended_witness :
    (calculateCombinedModifiers (singleState hwTieA modelAcc0)).speedMultiplier ≤
      (calculateCombinedModifiers (singleState hwTieA modelAcc1)).speedMultiplier ∧
    (calculateCombinedModifiers (singleState hwTieA modelAcc1)).errorMultiplier ≤
      (calculateCombinedModifiers (singleState hwTieA modelAcc0)).errorMultiplier :=
  claim_C5_amended.2 hwTieA hwTieA modelAcc0 modelAcc1
    (by norm_num [hwTieA]) (by norm_num [hwTieA]) (by norm_num [modelAcc0])
    (by norm_num [hwTieA]) (by norm_num [hwTieA]) (by norm_num [hwTieA])
    (by norm_num [hwTieA]) (by norm_num [modelAcc0, modelAcc1])
    (by norm_num [modelAcc0, modelAcc1])

/-! ### Helper lemmas about the tick and the time controller -/

theorem jsOr1_nonneg (x : ℚ) (h : 0 ≤ x) : 0 ≤ jsOr1 x := by
  unfold jsOr1
  split
  · norm_num
  · exact h

theorem jsOr1_pos (x : ℚ) (h : 0 ≤ x) : 0 < jsOr1 x := by
  unfold jsOr1
  split
  · norm_num
  · next hne => exact lt_of_le_of_ne h (Ne.symm hne)

/-- One tick with a nonnegative speed multiplier and a nonnegative baseline
duration keeps progress within `[0,1]` and never decreases it. -/
theorem updateProjectProgress_bounds (p : ProjectState) (tu : ℚ) (m : Modifiers)
    (rnd : ℕ → ℚ) (h0 : 0 ≤ p.progress) (h1 : p.progress ≤ 1)
    (hsp : 0 ≤ m.speedMultiplier) (hbt : 0 ≤ p.baselineTime) :
    p.progress ≤ (updateProjectProgress p tu m rnd).progress ∧
    0 ≤ (updateProjectProgress p tu m rnd).progress ∧
    (updateProjectProgress p tu m rnd).progress ≤ 1 := by
  rw [updateProjectProgress_progress]
  have hb : 0 < jsOr1 p.baselineTime := jsOr1_pos _ hbt
  have hs : 0 ≤ jsOr1 m.speedMultiplier := jsOr1_nonneg _ hsp
  have hinc : 0 ≤ 1 / jsOr1 p.baselineTime * jsOr1 m.speedMultiplier :=
    mul_nonneg (le_of_lt (one_div_pos.mpr hb)) hs
  exact ⟨le_min h1 (by linarith), le_min (by norm_num) (by linarith),
    min_le_left _ _⟩

theorem updateProjectProgress_baselineTime (p : ProjectState) (tu : ℚ)
    (m : Modifiers) (rnd : ℕ → ℚ) :
    (updateProjectProgress p tu m rnd).baselineTime = p.baselineTime := by
  simp only [updateProjectProgress]
  rcases thresholdLoop_eq_or m p.progress rnd PROJECT_ERROR_THRESHOLDS 0 (preTick p m)
    with h | ⟨t, h⟩ <;> rw [h] <;> split <;> rfl

/-- The modifier calculator reads only the two ownership lists and the two
equipment catalogs. -/
theorem calcModifiers_congr (s t : GameState)
    (h1 : s.ownedHardware = t.ownedHardware) (h2 : s.ownedAiModels = t.ownedAiModels)
    (h3 : s.hardware = t.hardware) (h4 : s.aiModels = t.aiModels) :
    calculateCombinedModifiers s = calculateCombinedModifiers t := by
  unfold calculateCombinedModifiers applyHardwareMods applyAiMods
    ownedHardwareItems ownedAiModelItems
  rw [h1, h2, h3, h4]

/-- `advanceTimeBlock` leaves the ownership lists and the catalogs unchanged. -/
theorem advanceTimeBlock_ownedFields (s : GameState) (o : Oracle) :
    (advanceTimeBlock s o).ownedHardware = s.ownedHardware ∧
    (advanceTimeBlock s o).ownedAiModels = s.ownedAiModels ∧
    (advanceTimeBlock s o).hardware = s.hardware ∧
    (advanceTimeBlock s o).aiModels = s.aiModels := by
  by_cases hc : s.timeBlocks - 1 ≤ 0
  · simp only [advanceTimeBlock, if_pos hc]
    exact ⟨trivial, trivial, trivial, trivial⟩
  · simp only [advanceTimeBlock, if_neg hc]
    exact ⟨trivial, trivial, trivial, trivial⟩

theorem advanceTimeBlock_calc (s : GameState) (o : Oracle) :
    calculateCombinedModifiers (advanceTimeBlock s o) = calculateCombinedModifiers s := by
  obtain ⟨h1, h2, h3, h4⟩ := advanceTimeBlock_ownedFields s o
  exact calcModifiers_congr _ _ h1 h2 h3 h4

/-- The project list produced by `advanceTimeBlock`: the positional map that
ticks exactly the running jobs, with the modifiers computed from the current
ownership. -/
theorem advanceTimeBlock_activeProjects (s : GameState) (o : Oracle) :
    (advanceTimeBlock s o).activeProjects =
      mapWithIdx (fun i proj =>
        if proj.status = Status.running
        then updateProjectProgress proj 1 (calculateCombinedModifiers s) (o.projDraw i)
        else proj) 0 s.activeProjects := by
  by_cases hc : s.timeBlocks - 1 ≤ 0
  · have hcalc : calculateCombinedModifiers
        { s with day := s.day + 1, timeBlocks := TIME_BLOCKS_PER_DAY,
                 health := max 0 (s.health - 5) } = calculateCombinedModifiers s :=
      calcModifiers_congr _ _ rfl rfl rfl rfl
    simp only [advanceTimeBlock, if_pos hc, hcalc]
  · have hcalc : calculateCombinedModifiers { s with timeBlocks := s.timeBlocks - 1 }
        = calculateCombinedModifiers s :=
      calcModifiers_congr _ _ rfl rfl rfl rfl
    simp only [advanceTimeBlock, if_neg hc, hcalc]

theorem mapWithIdx_getElem? (f : ℕ → α → β) :
    ∀ (l : List α) (n i : ℕ), (mapWithIdx f n l)[i]? = (l[i]?).map (f (n + i)) := by
  intro l
  induction l with
  | nil => intro n i; simp [mapWithIdx]
  | cons x xs ih =>
    intro n i
    cases i with
    | zero => simp [mapWithIdx]
    | succ j =>
      simp only [mapWithIdx, List.getElem?_cons_succ]
      rw [ih (n + 1) j]
      have : n + 1 + j = n + (j + 1) := by omega
      rw [this]

theorem mem_mapWithIdx (f : ℕ → α → β) :
    ∀ (l : List α) (n : ℕ) (b : β), b ∈ mapWithIdx f n l →
      ∃ i x, l[i]? = some x ∧ b = f (n + i) x := by
  intro l
  induction l with
  | nil => intro n b h; cases h
  | cons x xs ih =>
    intro n b h
    rcases List.mem_cons.mp h with h | h
    · exact ⟨0, x, by simp, by simpa using h⟩
    · obtain ⟨i, y, hget, hb⟩ := ih (n + 1) b h
      refine ⟨i + 1, y, by simpa using hget, ?_⟩
      rw [hb]
      have : n + 1 + i = n + (i + 1) := by omega
      rw [this]

/-- Invariant preserved by any sequence of `advanceTimeBlock` ticks: every
active job keeps progress in `[0,1]` and a nonnegative baseline duration. -/
theorem advanceSeq_inv (os : List Oracle) : ∀ (s : GameState),
    (∀ p ∈ s.activeProjects, 0 ≤ p.progress ∧ p.progress ≤ 1 ∧ 0 ≤ p.baselineTime) →
    0 ≤ (calculateCombinedModifiers s).speedMultiplier →
    ∀ p ∈ (advanceSeq s os).activeProjects,
      0 ≤ p.progress ∧ p.progress ≤ 1 ∧ 0 ≤ p.baselineTime := by
  induction os with
  | nil => intro s h _ p hp; exact h p hp
  | cons o os ih =>
    intro s h hsp
    simp only [advanceSeq]
    apply ih
    · intro p hp
      rw [advanceTimeBlock_activeProjects] at hp
      obtain ⟨i, x, hget, rfl⟩ := mem_mapWithIdx _ _ _ _ hp
      have hx := h x (List.getElem?_mem hget)
      split
      · obtain ⟨hle, h0, h1⟩ := updateProjectProgress_bounds x 1
          (calculateCombinedModifiers s) (o.projDraw (0 + i)) hx.1 hx.2.1 hsp hx.2.2
        refine ⟨h0, h1, ?_⟩
        rw [updateProjectProgress_baselineTime]
        exact hx.2.2
      · exact hx
    · rw [advanceTimeBlock_calc]
      exact hsp

/-! ### C3 — progress bounds, monotonicity and freezing -/

/-- C3: (a) one tick of a job with progress in `[0,1]`, nonnegative baseline
duration and a nonnegative speed multiplier keeps progress in `[0,1]` and
never decreases it; (b) positionally, `advanceTimeBlock` leaves every
non-running job untouched (progress frozen while in error) and ticks the
running ones within the same bounds; (c) along every sequence of ticks the
progress of every active job stays within `[0,1]`. -/
theorem claim_C3 :
    (∀ (p : ProjectState) (m : Modifiers) (rnd : ℕ → ℚ),
      0 ≤ p.progress → p.progress ≤ 1 → 0 ≤ m.speedMultiplier → 0 ≤ p.baselineTime →
      p.progress ≤ (updateProjectProgress p 1 m rnd).progress ∧
      0 ≤ (updateProjectProgress p 1 m rnd).progress ∧
      (updateProjectProgress p 1 m rnd).progress ≤ 1) ∧
    (∀ (s : GameState) (o : Oracle) (i : ℕ) (p q : ProjectState),
      s.activeProjects[i]? = some p →
      (advanceTimeBlock s o).activeProjects[i]? = some q →
      (p.status ≠ Status.running → q = p) ∧
      (0 ≤ p.progress → p.progress ≤ 1 → 0 ≤ p.baselineTime →
        0 ≤ (calculateCombinedModifiers s).speedMultiplier →
        p.progress ≤ q.progress ∧ 0 ≤ q.progress ∧ q.progress ≤ 1)) ∧
    (∀ (s : GameState) (os : List Oracle),
      (∀ p ∈ s.activeProjects, 0 ≤ p.progress ∧ p.progress ≤ 1 ∧ 0 ≤ p.baselineTime) →
      0 ≤ (calculateCombinedModifiers s).speedMultiplier →
      ∀ p ∈ (advanceSeq s os).activeProjects, 0 ≤ p.progress ∧ p.progress ≤ 1) := by
  refine ⟨?_, ?_, ?_⟩
  · intro p m rnd h0 h1 hsp hbt
    exact updateProjectProgress_bounds p 1 m rnd h0 h1 hsp hbt
  · intro s o i p q hp hq
    rw [advanceTimeBlock_activeProjects, mapWithIdx_getElem?, hp] at hq
    simp only [Option.map_some', Option.some.injEq, Nat.zero_add] at hq
    constructor
    · intro hst
      rw [← hq, if_neg hst]
    · intro h0 h1 hbt hsp
      rw [← hq]
      split
      · exact updateProjectProgress_bounds p 1 _ (o.projDraw i) h0 h1 hsp hbt
      · exact ⟨le_refl _, h0, h1⟩
  · intro s os h hsp p hp
    have := advanceSeq_inv os s h hsp p hp
    exact ⟨this.1, this.2.1⟩

/-- C3, witness: one tick of `exProjC1` under neutral modifiers keeps progress
within bounds. -/
theorem claim_C3_witness :
    exProjC1.progress ≤ (updateProjectProgress exProjC1 1 neutralMods zeroRnd).progress ∧
    0 ≤ (updateProjectProgress exProjC1 1 neutralMods zeroRnd).progress ∧
    (updateProjectProgress exProjC1 1 neutralMods zeroRnd).progress ≤ 1 :=
  claim_C3.1 exProjC1 neutralMods zeroRnd (by norm_num [exProjC1])
    (by norm_num [exProjC1]) (by norm_num [neutralMods]) (by norm_num [exProjC1])

/-! ### C9 — bounded feed and archive queues -/

/-- C9: (a) starting from a feed within its bound, `generateNewMessages`
returns an active feed of at most `MAX_FEED_MESSAGES` (5) messages; (b)
starting from an archive within its bound, `handleFeedAction` returns an
archive of at most `MAX_ARCHIVED_FEED_MESSAGES` (25) messages; (c) on a
dismiss or archive action the actioned message is prepended (most recent
first) and the archive is truncated at the end, dropping the oldest entries. -/
theorem claim_C9 :
    (∀ (s : GameState) (o : Oracle),
      s.activeFeedMessages.length ≤ MAX_FEED_MESSAGES →
      (generateNewMessages s o).activeFeedMessages.length ≤ MAX_FEED_MESSAGES) ∧
    (∀ (s : GameState) (mid : String) (act : FeedActionType),
      s.archivedFeedMessages.length ≤ MAX_ARCHIVED_FEED_MESSAGES →
      (handleFeedAction s mid act).archivedFeedMessages.length ≤
        MAX_ARCHIVED_FEED_MESSAGES) ∧
    (∀ (s : GameState) (mid : String) (msg : FeedMessage),
      s.activeFeedMessages.find? (fun m => m.id == mid) = some msg →
      (handleFeedAction s mid FeedActionType.dismiss).archivedFeedMessages =
        (msg :: s.archivedFeedMessages).take MAX_ARCHIVED_FEED_MESSAGES ∧
      (handleFeedAction s mid FeedActionType.archive).archivedFeedMessages =
        (msg :: s.archivedFeedMessages).take MAX_ARCHIVED_FEED_MESSAGES) := by
  refine ⟨?_, ?_, ?_⟩
  · intro s o h
    simp only [generateNewMessages]
    split
    · exact h
    · dsimp only
      split <;> split
      · rw [List.length_take]
        exact min_le_left _ _
      · next hlen => exact Nat.le_of_not_lt hlen
      · rw [List.length_take]
        exact min_le_left _ _
      · next hlen => exact Nat.le_of_not_lt hlen
  · intro s mid act h
    simp only [handleFeedAction]
    cases hfind : s.activeFeedMessages.find? (fun m => m.id == mid) with
    | none => exact h
    | some msg =>
      dsimp only
      cases act with
      | accept =>
        dsimp only
        split <;> split
        · rw [List.length_take]
          exact min_le_left _ _
        · next hlen => exact Nat.le_of_not_lt hlen
        · rw [List.length_take]
          exact min_le_left _ _
        · next hlen => exact Nat.le_of_not_lt hlen
      | dismiss =>
        dsimp only
        split
        · rw [List.length_take]
          exact min_le_left _ _
        · next hlen => exact Nat.le_of_not_lt hlen
      | archive =>
        dsimp only
        split
        · rw [List.length_take]
          exact min_le_left _ _
        · next hlen => exact Nat.le_of_not_lt hlen
  · intro s mid msg hfind
    constructor <;>
    · simp only [handleFeedAction, hfind]
      split
      · rfl
      · next hlen =>
        exact (List.take_of_length_le (Nat.le_of_not_lt hlen)).symm

/-- C9, witness: dismissing the only active message of `sC9` archives it at
the front, and the bounds hold. -/
theorem claim_C9_witness :
    (generateNewMessages sC9 constOracle).activeFeedMessages.length ≤
      MAX_FEED_MESSAGES ∧
    (handleFeedAction sC9 "m1" FeedActionType.dismiss).archivedFeedMessages =
      (msgC9 :: sC9.archivedFeedMessages).take MAX_ARCHIVED_FEED_MESSAGES :=
  ⟨claim_C9.1 sC9 constOracle (by norm_num [sC9, baseState, MAX_FEED_MESSAGES]),
   (claim_C9.2.2 sC9 "m1" msgC9 rfl).1⟩

/-! ### Helper lemmas about status transitions -/

/-- A tick of a running job ends in running, error or completed — never failed. -/
theorem updateProjectProgress_status_cases (p : ProjectState) (m : Modifiers)
    (rnd : ℕ → ℚ) (h : p.status = Status.running) :
    (updateProjectProgress p 1 m rnd).status = Status.running ∨
    (updateProjectProgress p 1 m rnd).status = Status.error ∨
    (updateProjectProgress p 1 m rnd).status = Status.completed := by
  simp only [updateProjectProgress]
  rcases thresholdLoop_eq_or m p.progress rnd PROJECT_ERROR_THRESHOLDS 0 (preTick p m)
    with hL | ⟨t, hL⟩ <;> rw [hL] <;> split
  · exact Or.inr (Or.inr rfl)
  · exact Or.inl h
  · exact Or.inr (Or.inr rfl)
  · exact Or.inr (Or.inl rfl)

/-- A quick (YOLO) resolution ends in running or failed. -/
theorem resolveYolo_status (p : ProjectState) (m : Modifiers) (d : ℚ) :
    (resolveYolo p m d).status = Status.running ∨
    (resolveYolo p m d).status = Status.failed := by
  simp only [resolveYolo]
  split
  · exact Or.inl rfl
  · exact Or.inr rfl

theorem resolveYolo_projectId (p : ProjectState) (m : Modifiers) (d : ℚ) :
    (resolveYolo p m d).projectId = p.projectId := by
  simp only [resolveYolo]
  split <;> rfl

/-- A guided resolution ends in running or keeps the previous status. -/
theorem resolveIntervention_status (p : ProjectState) (tid : String)
    (data : List PromptItem) (m : Modifiers) (d : ℚ) :
    (resolveIntervention p tid data m d).status = Status.running ∨
    (resolveIntervention p tid data m d).status = p.status := by
  simp only [resolveIntervention]
  split
  · exact Or.inr rfl
  · split
    · exact Or.inl rfl
    · exact Or.inr rfl

/-! ### C2 — the job status transition system -/

/-- C2 counterexample: from `sAssign`, assigning the project puts the RUNNING
job `runJobC2` in the active list; its quick resolution with a failing draw
returns status `failed` (the transition running→failed), and the handler —
which never checks that the job is in error — takes the failure path: the job
is removed and the health penalty applied. -/
theorem claim_C2_counterexample :
    sRun.activeProjects = [runJobC2] ∧
    runJobC2.status = Status.running ∧
    (resolveYolo runJobC2 (calculateCombinedModifiers sRun) 0).status = Status.failed ∧
    (handleYoloAttempt sRun "p1" 0).activeProjects = [] ∧
    (handleYoloAttempt sRun "p1" 0).health = 98 := by
  have hs : sRun.activeProjects = [runJobC2] := by
    norm_num [sRun, assignProjectToGpu, sAssign, baseState, exProjectRec,
      runJobC2, List.find?]
  refine ⟨hs, rfl, ?_, ?_, ?_⟩
  · norm_num [resolveYolo, runJobC2, calculateCombinedModifiers,
      applyHardwareMods, applyAiMods, ownedHardwareItems, ownedAiModelItems,
      pickBest, sRun, assignProjectToGpu, sAssign, baseState, exProjectRec,
      List.find?, List.filterMap, jsOr1]
  · norm_num [handleYoloAttempt, findWithIndex, resolveYolo, runJobC2,
      calculateCombinedModifiers, applyHardwareMods, applyAiMods,
      ownedHardwareItems, ownedAiModelItems, pickBest, sRun, assignProjectToGpu,
      sAssign, baseState, exProjectRec, List.find?, List.filterMap, jsOr1]
  · norm_num [handleYoloAttempt, findWithIndex, resolveYolo, runJobC2,
      calculateCombinedModifiers, applyHardwareMods, applyAiMods,
      ownedHardwareItems, ownedAiModelItems, pickBest, sRun, assignProjectToGpu,
      sAssign, baseState, exProjectRec, List.find?, List.filterMap, jsOr1, max_def]

/-- C2 amended: provided quick and guided resolution are only invoked on jobs
in status error — which the handlers themselves do not enforce — every job
status transition follows the claimed edges: a tick takes a running job to
running, error or completed and leaves non-running jobs untouched; a quick
resolution takes an error job to running or failed (a failed job is removed);
a guided resolution takes an error job to running or leaves it in error; and
assignment only appends a fresh running job.  Invoking the quick resolution on
a running job additionally yields running→failed, as the counterexample
shows. -/
theorem claim_C2_amended :
    (∀ (p : ProjectState) (m : Modifiers) (rnd : ℕ → ℚ),
      p.status = Status.running →
      (updateProjectProgress p 1 m rnd).status = Status.running ∨
      (updateProjectProgress p 1 m rnd).status = Status.error ∨
      (updateProjectProgress p 1 m rnd).status = Status.completed) ∧
    (∀ (s : GameState) (o : Oracle) (i : ℕ) (p q : ProjectState),
      s.activeProjects[i]? = some p →
      (advanceTimeBlock s o).activeProjects[i]? = some q →
      (p.status ≠ Status.running → q = p) ∧
      (p.status = Status.running →
        q.status = Status.running ∨ q.status = Status.error ∨
        q.status = Status.completed)) ∧
    (∀ (p : ProjectState) (m : Modifiers) (d : ℚ),
      p.status = Status.error →
      (resolveYolo p m d).status = Status.running ∨
      (resolveYolo p m d).status = Status.failed) ∧
    (∀ (p : ProjectState) (tid : String) (data : List PromptItem) (m : Modifiers)
      (d : ℚ), p.status = Status.error →
      (resolveIntervention p tid data m d).status = Status.running ∨
      (resolveIntervention p tid data m d).status = Status.error) ∧
    (∀ (s : GameState) (pid : String) (g : ℤ),
      (assignProjectToGpu s pid g).activeProjects = s.activeProjects ∨
      ∃ np, np.status = Status.running ∧
        (assignProjectToGpu s pid g).activeProjects = s.activeProjects ++ [np]) ∧
    (∀ (s : GameState) (pid : String) (d : ℚ) (q : ProjectState),
      (∀ p ∈ s.activeProjects, p.projectId = pid → p.status = Status.error) →
      q ∈ (handleYoloAttempt s pid d).activeProjects →
      q ∈ s.activeProjects ∨
      (q.status = Status.running ∧ ∃ p ∈ s.activeProjects, p.status = Status.error)) ∧
    (∀ (s : GameState) (pid tid : String) (d : ℚ) (q : ProjectState),
      (∀ p ∈ s.activeProjects, p.projectId = pid → p.status = Status.error) →
      q ∈ (handleInterventionAttempt s pid tid d).activeProjects →
      q ∈ s.activeProjects ∨
      ((q.status = Status.running ∨ q.status = Status.error) ∧
        ∃ p ∈ s.activeProjects, p.status = Status.error)) := by
  refine ⟨?_, ?_, ?_, ?_, ?_, ?_, ?_⟩
  · exact updateProjectProgress_status_cases
  · intro s o i p q hp hq
    rw [advanceTimeBlock_activeProjects, mapWithIdx_getElem?, hp] at hq
    simp only [Option.map_some', Option.some.injEq, Nat.zero_add] at hq
    constructor
    · intro hst
      rw [← hq, if_neg hst]
    · intro hst
      rw [← hq, if_pos hst]
      exact updateProjectProgress_status_cases p _ _ hst
  · intro p m d _
    exact resolveYolo_status p m d
  · intro p tid data m d herr
    rcases resolveIntervention_status p tid data m d with h | h
    · exact Or.inl h
    · exact Or.inr (h.trans herr)
  · intro s pid g
    unfold assignProjectToGpu
    cases s.availableProjects.find? (fun p => p.Project_ID == pid) with
    | none => exact Or.inl rfl
    | some projectToAssign =>
      dsimp only
      split
      · exact Or.inl rfl
      · exact Or.inr ⟨_, rfl, rfl⟩
  · intro s pid d q hguard hq
    unfold handleYoloAttempt at hq
    cases hf : findWithIndex (fun p => p.projectId == pid) s.activeProjects 0 with
    | none =>
      rw [hf] at hq
      exact Or.inl hq
    | some pair =>
      obtain ⟨i, project⟩ := pair
      rw [hf] at hq
      dsimp only at hq
      obtain ⟨hmem, hpred⟩ := findWithIndex_mem _ s.activeProjects i project hf
      have hpid : project.projectId = pid := beq_iff_eq.mp hpred
      have herr : project.status = Status.error := hguard project hmem hpid
      by_cases hfl :
          (resolveYolo project (calculateCombinedModifiers s) d).status = Status.failed
      · rw [if_pos hfl] at hq
        dsimp only at hq
        have hq' := List.mem_of_mem_filter hq
        rcases mem_of_mem_set' _ _ _ _ hq' with h | h
        · exact Or.inl h
        · exfalso
          have hpredq := List.of_mem_filter hq
          rw [h] at hpredq
          simp only [resolveYolo_projectId, hpid, Bool.not_eq_true'] at hpredq
          simp at hpredq
      · rw [if_neg hfl] at hq
        dsimp only at hq
        rcases mem_of_mem_set' _ _ _ _ hq with h | h
        · exact Or.inl h
        · rcases resolveYolo_status project (calculateCombinedModifiers s) d with hr | hr
          · exact Or.inr ⟨h ▸ hr, project, hmem, herr⟩
          · exact absurd hr hfl
  · intro s pid tid d q hguard hq
    unfold handleInterventionAttempt at hq
    cases hf : findWithIndex (fun p => p.projectId == pid) s.activeProjects 0 with
    | none =>
      rw [hf] at hq
      exact Or.inl hq
    | some pair =>
      obtain ⟨i, project⟩ := pair
      rw [hf] at hq
      dsimp only at hq
      obtain ⟨hmem, hpred⟩ := findWithIndex_mem _ s.activeProjects i project hf
      have hpid : project.projectId = pid := beq_iff_eq.mp hpred
      have herr : project.status = Status.error := hguard project hmem hpid
      rcases mem_of_mem_set' _ _ _ _ hq with h | h
      · exact Or.inl h
      · rcases resolveIntervention_status project tid s.prompts
          (calculateCombinedModifiers s) d with hr | hr
        · exact Or.inr ⟨Or.inl (h ▸ hr), project, hmem, herr⟩
        · exact Or.inr ⟨Or.inr (h ▸ (hr.trans herr)), project, hmem, herr⟩

/-- C2 amended, witness: a quick resolution of the errored job `errProjC7`
ends in running or failed. -/
theorem claim_C2_amended_witness :
    (resolveYolo errProjC7 neutralMods 0).status = Status.running ∨
    (resolveYolo errProjC7 neutralMods 0).status = Status.failed :=
  claim_C2_amended.2.2.1 errProjC7 neutralMods 0 rfl

/-- C8 amended, witness: assigning to the in-range slot 2 of `sAssign`
preserves both halves of the invariant. -/
theorem claim_C8_amended_witness :
    List.Pairwise (fun a b => a.assignedGpu ≠ b.assignedGpu)
      (assignProjectToGpu sAssign "p1" 2).activeProjects ∧
    ∀ p ∈ (assignProjectToGpu sAssign "p1" 2).activeProjects,
      1 ≤ p.assignedGpu ∧ p.assignedGpu ≤ (assignProjectToGpu sAssign "p1" 2).availableGpus :=
  ⟨claim_C8_amended.1 sAssign "p1" 2 (by simp [sAssign, baseState]),
   claim_C8_amended.2 sAssign "p1" 2 (by norm_num) (by norm_num [sAssign, baseState])
     (by simp [sAssign, baseState])⟩

end VibeSim
